import Mathlib

set_option maxRecDepth 100000

/-!
Shallow embedding of `generate_code.py`, a PlantUML-to-Java skeleton
generator.  The core function `generate_java_code_from_plantuml` is a pure
transform from the diagram text to a mapping from declared type name to
generated Java source text (the file writing itself is external I/O).

The Python code drives everything with five regular expressions:

* `class_pattern      = (?:(abstract)\s+)?class\s+(\w+)\s*\{([^}]*)\}`
* `interface_pattern  = interface\s+(\w+)\s*\{([^}]*)\}`
* `member_pattern     = ^\s*([+\-#~])\s*(\w+)(?:\s*:\s*(\w+))?(?:\(([^)]*)\))?(?:\s*:\s*(\w+))?$`
* `inheritance_pattern    = (\w+)\s*<\|--\s*(\w+)`
* `implementation_pattern = (\w+)\s*\.\.\|>\s*(\w+)`

Each pattern is embedded below as a deterministic scanner over `List Char`.
For these particular patterns backtracking never changes the outcome
(word characters, whitespace and the structural delimiters are pairwise
disjoint character classes), so greedy scanning is exactly Python's
semantics; `re.finditer` is embedded as a left-to-right scan that resumes
after the end of each match and otherwise advances one character (all
matches here have positive length, so fuel `length cs` suffices).
Character classes follow Python's ASCII behaviour (`\w` = alphanumeric or
underscore, `\s` = space, tab, newline, return, vertical tab, form feed),
which covers all diagram inputs the program is designed for.
-/

/-- Python `\w` (ASCII): letters, digits, underscore. -/
def isWordChar (c : Char) : Bool := c.isAlphanum || c == '_'

/-- Python `\s` (ASCII): space, tab, newline, carriage return, vertical tab, form feed. -/
def isSpaceChar (c : Char) : Bool :=
  c == ' ' || c == '\t' || c == '\n' || c == '\r' || c == '\x0b' || c == '\x0c'

/-- Maximal `\w*` prefix: returns (word, remainder). -/
def takeWord : List Char → List Char × List Char
  | [] => ([], [])
  | c :: cs =>
    if isWordChar c then
      let p := takeWord cs
      (c :: p.1, p.2)
    else ([], c :: cs)

/-- Maximal `\s*` prefix removal. -/
def dropWs : List Char → List Char
  | [] => []
  | c :: cs => if isSpaceChar c then dropWs cs else c :: cs

/-- Match a literal string at the head; return the remainder on success. -/
def stripLit : List Char → List Char → Option (List Char)
  | [], cs => some cs
  | _, [] => none
  | l :: ls, c :: cs => if c == l then stripLit ls cs else none

/-- `([^X]*)X` for a closing delimiter `X`: text up to the first occurrence of
`X` plus the remainder after it; `none` when `X` never occurs. -/
def takeUpto (close : Char) : List Char → Option (List Char × List Char)
  | [] => none
  | c :: cs =>
    if c == close then some ([], cs)
    else (takeUpto close cs).map (fun p => (c :: p.1, p.2))

/-- Python `str.split(sep)` for a one-character separator. -/
def splitOnChar (sep : Char) : List Char → List (List Char)
  | [] => [[]]
  | c :: cs =>
    let r := splitOnChar sep cs
    if c == sep then [] :: r
    else
      match r with
      | h :: t => (c :: h) :: t
      | [] => [[c]]

/-- Python `str.strip()` (ASCII whitespace). -/
def stripChars (cs : List Char) : List Char :=
  (dropWs (dropWs cs.reverse).reverse)

/-- Whether `pat` is a prefix of the list. -/
def isPre : List Char → List Char → Bool
  | [], _ => true
  | _ :: _, [] => false
  | a :: as, b :: bs => a == b && isPre as bs

/-- Python `in` on strings: whether `pat` occurs as a contiguous substring. -/
def containsSub (pat : List Char) : List Char → Bool
  | [] => pat.isEmpty
  | c :: cs => isPre pat (c :: cs) || containsSub pat cs

/-- Python `str.replace(pat, repl)` (all occurrences, left to right). -/
def replaceSub (pat repl : List Char) : List Char → List Char
  | [] => []
  | c :: cs =>
    if pat ≠ [] ∧ isPre pat (c :: cs) then
      repl ++ replaceSub pat repl (cs.drop (pat.length - 1))
    else
      c :: replaceSub pat repl cs
termination_by cs => cs.length
decreasing_by
  · simp [List.length_drop]; omega
  · simp

/-- Python `str.lower()` (ASCII). -/
def lowerL (cs : List Char) : List Char := cs.map Char.toLower

/-- String-level substring test (Python `in`). -/
def containsSubStr (pat s : String) : Bool := containsSub pat.toList s.toList

/-- Generic embedding of `re.finditer`: try a match at each position; on a
match, record it and resume after its end, otherwise advance one character.
All matchers used here consume at least one character per match, so fuel
equal to the input length is sufficient. -/
def scanAux {β : Type} (tryAt : List Char → Option (β × List Char)) :
    Nat → List Char → List β
  | 0, _ => []
  | Nat.succ fuel, cs =>
    match tryAt cs with
    | some (x, rest) => x :: scanAux tryAt fuel rest
    | none =>
      match cs with
      | [] => []
      | _ :: t => scanAux tryAt fuel t

/-- Run a matcher over the whole text, `re.finditer` style. -/
def scanAll {β : Type} (tryAt : List Char → Option (β × List Char)) (cs : List Char) :
    List β :=
  scanAux tryAt cs.length cs

/-! ### Pattern matchers (one per regular expression in the source) -/

/-- `<kw>\s+(\w+)\s*\{([^}]*)\}` at the current position: keyword, at least
one whitespace, a name, optional whitespace, an open brace, then the body up
to the first closing brace.  Returns ((name, body), remainder-after-match). -/
def kwBlockAt (kw : List Char) (cs : List Char) :
    Option ((List Char × List Char) × List Char) :=
  match stripLit kw cs with
  | some (c :: r) =>
    if isSpaceChar c then
      match takeWord (dropWs r) with
      | ([], _) => none
      | (nm, r2) =>
        match dropWs r2 with
        | '\x7b' :: r3 => (takeUpto '\x7d' r3).map (fun p => ((nm, p.1), p.2))
        | _ => none
    else none
  | _ => none

/-- The optional `(abstract)\s+` prefix of `class_pattern`. -/
def abstractPrefixAt (cs : List Char) : Option (List Char) :=
  match stripLit ("abstract".toList) cs with
  | some (c :: r) => if isSpaceChar c then some (dropWs (c :: r)) else none
  | _ => none

/-- `class_pattern` at the current position.  Python first tries the optional
`(abstract)\s+` group and falls back to matching `class ...` directly at the
same position when the prefixed attempt fails. -/
def classMatchAt (cs : List Char) :
    Option ((Bool × List Char × List Char) × List Char) :=
  match abstractPrefixAt cs with
  | some r =>
    match kwBlockAt ("class".toList) r with
    | some ((n, b), rest) => some ((true, n, b), rest)
    | none => (kwBlockAt ("class".toList) cs).map (fun p => ((false, p.1.1, p.1.2), p.2))
  | none => (kwBlockAt ("class".toList) cs).map (fun p => ((false, p.1.1, p.1.2), p.2))

/-- `interface_pattern` at the current position. -/
def interfaceMatchAt (cs : List Char) :
    Option ((List Char × List Char) × List Char) :=
  kwBlockAt ("interface".toList) cs

/-- `(\w+)\s*<lit>\s*(\w+)` at the current position, shared shape of
`inheritance_pattern` (`lit` = `<|--`) and `implementation_pattern`
(`lit` = `..|>`). -/
def relMatchAt (lit : List Char) (cs : List Char) :
    Option ((String × String) × List Char) :=
  match takeWord cs with
  | ([], _) => none
  | (w1, r1) =>
    match stripLit lit (dropWs r1) with
    | some r2 =>
      match takeWord (dropWs r2) with
      | ([], _) => none
      | (w2, r3) => some ((w1.asString, w2.asString), r3)
    | none => none

/-- All `class_pattern` matches, in order: (is_abstract, name, body). -/
def classMatches (cs : List Char) : List (Bool × List Char × List Char) :=
  scanAll classMatchAt cs

/-- All `interface_pattern` matches, in order: (name, body). -/
def interfaceMatches (cs : List Char) : List (List Char × List Char) :=
  scanAll interfaceMatchAt cs

/-- All `inheritance_pattern` matches, in order. -/
def inheritanceMatches (cs : List Char) : List (String × String) :=
  scanAll (relMatchAt ("<|--".toList)) cs

/-- All `implementation_pattern` matches, in order. -/
def implementationMatches (cs : List Char) : List (String × String) :=
  scanAll (relMatchAt ("..|>".toList)) cs

/-! ### `member_pattern`

Applied by the source as `member_pattern.match(line.strip())`, i.e. anchored
at the start of the stripped line and, through the final `$`, required to
consume the whole line (body lines contain no embedded newline, since the
body was split on newlines). -/

/-- One parsed member-pattern match: the five capture groups. -/
structure Member where
  vis : Char
  name : List Char
  attrType : Option (List Char)
  params : Option (List Char)
  retType : Option (List Char)
deriving DecidableEq, Repr

/-- Optional group `(?:\s*:\s*(\w+))?`: on full success return the word and
the remainder, otherwise consume nothing. -/
def tryColonWord (cs : List Char) : Option (List Char) × List Char :=
  match dropWs cs with
  | ':' :: r =>
    match takeWord (dropWs r) with
    | ([], _) => (none, cs)
    | (w, r2) => (some w, r2)
  | _ => (none, cs)

/-- Optional group `(?:\(([^)]*)\))?` (no leading whitespace allowed): on full
success return the parenthesized text and the remainder, else consume nothing. -/
def tryParens (cs : List Char) : Option (List Char) × List Char :=
  match cs with
  | '(' :: r =>
    match takeUpto ')' r with
    | some (p, rest) => (some p, rest)
    | none => (none, cs)
  | _ => (none, cs)

/-- The part of `member_pattern` after the visibility marker:
`\s*(\w+)(?:\s*:\s*(\w+))?(?:\(([^)]*)\))?(?:\s*:\s*(\w+))?$`. -/
def parseAfterVis (c : Char) (cs : List Char) : Option Member :=
  match takeWord (dropWs cs) with
  | ([], _) => none
  | (nm, r1) =>
    let pA := tryColonWord r1
    let pP := tryParens pA.2
    let pB := tryColonWord pP.2
    if pB.2 = [] then some ⟨c, nm, pA.1, pP.1, pB.1⟩ else none

/-- `member_pattern.match(line.strip())`: the leading visibility marker is
mandatory and must be one of `+ - # ~`. -/
def parseMember (line : List Char) : Option Member :=
  match stripChars line with
  | [] => none
  | c :: rest =>
    if c = '+' ∨ c = '-' ∨ c = '#' ∨ c = '~' then parseAfterVis c rest
    else none

/-! ### Data model (Pass 1 and Pass 2 of the source) -/

/-- A structured attribute record (`details['attributes']` entries). -/
structure JAttr where
  visibility : String
  type : String
  name : String
deriving DecidableEq, Repr

/-- A structured method record (`details['methods']` entries). -/
structure JMethod where
  visibility : String
  name : String
  parameters : String
  returnType : String
deriving DecidableEq, Repr

/-- A declaration-table entry (`parsed_elements[name]`). -/
structure JDecl where
  type : String
  attributes : List JAttr
  methods : List JMethod
  body : List Char
deriving DecidableEq, Repr

/-- A fresh Pass-1 entry: kind and raw body only. -/
def emptyDecl (ty : String) (body : List Char) : JDecl :=
  ⟨ty, [], [], body⟩

/-- The visibility mapping of Pass 2, including its (unreachable, see C5)
default to `public` for unknown marker characters. -/
def javaVisibility (c : Char) : String :=
  if c = '+' then "public"
  else if c = '-' then "private"
  else if c = '#' then "protected"
  else if c = '~' then ""
  else "public"

/-- Python dict-style insertion into an association list: overwrite in place
when the key exists, append otherwise. -/
def insertAssoc {α : Type} (l : List (String × α)) (kv : String × α) :
    List (String × α) :=
  match l with
  | [] => [kv]
  | (k, v) :: t => if k = kv.1 then kv :: t else (k, v) :: insertAssoc t kv

/-- Key lookup in an association list (Python `d[k]` / `d.get(k)`). -/
def lookupAssoc {α : Type} (l : List (String × α)) (k : String) : Option α :=
  match l with
  | [] => none
  | (k', v) :: t => if k' = k then some v else lookupAssoc t k

/-- Python `k in d`. -/
def containsKey {α : Type} (l : List (String × α)) (k : String) : Bool :=
  (lookupAssoc l k).isSome

/-- The class-pattern contributions to `parsed_elements`, in match order. -/
def classEntries (cs : List Char) : List (String × JDecl) :=
  (classMatches cs).map (fun t =>
    (t.2.1.asString, emptyDecl (if t.1 then "abstract_class" else "class") t.2.2))

/-- The interface-pattern contributions to `parsed_elements`, in match order. -/
def interfaceEntries (cs : List Char) : List (String × JDecl) :=
  (interfaceMatches cs).map (fun t => (t.1.asString, emptyDecl "interface" t.2))

/-- Pass 1: the class loop runs in full, then the interface loop; each entry
is a dict write (overwrite on duplicate names). -/
def pass1 (cs : List Char) : List (String × JDecl) :=
  (interfaceEntries cs).foldl insertAssoc ((classEntries cs).foldl insertAssoc [])

/-! ### Pass 2: member resolution -/

/-- Format one parameter (`p.strip().split(':')`; exactly two parts become
`"<type> <name>"`, anything else falls back to the stripped raw text). -/
def renderParam (p : List Char) : List Char :=
  let ps := stripChars p
  match splitOnChar ':' ps with
  | [a, b] => stripChars b ++ ' ' :: stripChars a
  | _ => ps

/-- Format a parameter list: empty string stays empty (`if params_str:`),
otherwise split on commas and join the formatted parameters with `", "`. -/
def renderParams (ps : List Char) : String :=
  if ps = [] then ""
  else String.intercalate ", " ((splitOnChar ',' ps).map (fun p => (renderParam p).asString))

/-- Build an attribute record from a matched member line with no parameter
list (type defaults to `Object`). -/
def memberAttr (m : Member) : JAttr :=
  ⟨javaVisibility m.vis,
   (match m.attrType with | some t => t.asString | none => "Object"),
   m.name.asString⟩

/-- Build a method record from a matched member line with a parameter list
(return type defaults to `void`). -/
def memberMethod (m : Member) (ps : List Char) : JMethod :=
  ⟨javaVisibility m.vis, m.name.asString, renderParams ps,
   (match m.retType with | some t => t.asString | none => "void")⟩

/-- Pass 2 for one declaration: split the raw body on newlines, match each
line against `member_pattern`, and classify matches (a parameter list, even
an empty one, makes the line a method; otherwise it is an attribute). -/
def populate (d : JDecl) : JDecl :=
  let ms := (splitOnChar '\n' d.body).filterMap parseMember
  { d with
    attributes := ms.filterMap (fun m =>
      match m.params with
      | none => some (memberAttr m)
      | some _ => none),
    methods := ms.filterMap (fun m =>
      match m.params with
      | some ps => some (memberMethod m ps)
      | none => none) }

/-- The declaration table after Pass 1 and Pass 2. -/
def parsedElements (cs : List Char) : List (String × JDecl) :=
  (pass1 cs).map (fun p => (p.1, populate p.2))

/-! ### Pass 3: relationships -/

/-- `relationships['extends']`: for each `inheritance_pattern` match
`(child, parent)` (the left word is the child), record `extends[child] =
parent` when both names are declared; a later match for the same child
overwrites. -/
def extendsMap (cs : List Char) (elems : List (String × JDecl)) :
    List (String × String) :=
  (inheritanceMatches cs).foldl
    (fun acc e =>
      if containsKey elems e.1 && containsKey elems e.2 then insertAssoc acc e
      else acc)
    []

/-- Append `v` to the list stored at key `k`, creating the entry when absent
(the `if implementing_class not in ... : ... = []` / `append` idiom). -/
def appendImpl (l : List (String × List String)) (k : String) (v : String) :
    List (String × List String) :=
  match l with
  | [] => [(k, [v])]
  | (k', vs) :: t => if k' = k then (k', vs ++ [v]) :: t else (k', vs) :: appendImpl t k v

/-- `relationships['implements']`: for each `implementation_pattern` match
`(class, interface)`, append the interface to the class's list when both
names are declared. -/
def implementsMap (cs : List Char) (elems : List (String × JDecl)) :
    List (String × List String) :=
  (implementationMatches cs).foldl
    (fun acc e =>
      if containsKey elems e.1 && containsKey elems e.2 then appendImpl acc e.1 e.2
      else acc)
    []

/-! ### Pass 4: rendering -/

/-- Python `str.capitalize()`: first character uppercased, all remaining
characters lowercased. -/
def pyCapitalize (s : String) : String :=
  match s.toList with
  | [] => ""
  | c :: rest => (c.toUpper :: rest.map Char.toLower).asString

/-- The convenience-import block (`Date` by exact attribute-type match or
substring of method parameters/return types; `List` by substring). -/
def importsBlock (d : JDecl) : String :=
  let dateImp := d.attributes.any (fun a => a.type = "Date")
    || d.methods.any (fun m =>
         containsSubStr "Date" m.parameters || containsSubStr "Date" m.returnType)
  let listImp := d.attributes.any (fun a => containsSubStr "List" a.type)
    || d.methods.any (fun m =>
         containsSubStr "List" m.parameters || containsSubStr "List" m.returnType)
  (if dateImp then "import java.util.Date;\n" else "")
    ++ (if listImp then "import java.util.List;\nimport java.util.ArrayList;\n" else "")
    ++ (if dateImp || listImp then "\n" else "")

/-- The kind keyword part of `declaration_line`. -/
def declKindHeader (name : String) (d : JDecl) : String :=
  if d.type = "abstract_class" then "public abstract class " ++ name
  else if d.type = "class" then "public class " ++ name
  else if d.type = "interface" then "public interface " ++ name
  else ""

/-- The extends clause: appended whenever the name is a key of `extends`. -/
def withExtends (base : String) (name : String) (ext : List (String × String)) :
    String :=
  match lookupAssoc ext name with
  | some p => base ++ " extends " ++ p
  | none => base

/-- `declaration_line`: kind header, then the extends clause, then the
implements clause (comma-joined), each keyed only on the relationship
tables — there is no kind-based guard. -/
def declarationLine (name : String) (d : JDecl) (ext : List (String × String))
    (impl : List (String × List String)) : String :=
  match lookupAssoc impl name with
  | some l => withExtends (declKindHeader name d) name ext
      ++ " implements " ++ String.intercalate ", " l
  | none => withExtends (declKindHeader name d) name ext

/-- The field block: one line per attribute plus a blank line when any
attribute exists.  Rendered for every declaration kind. -/
def fieldsBlock (attrs : List JAttr) : String :=
  String.join (attrs.map (fun a =>
    "    " ++ a.visibility ++ " " ++ a.type ++ " " ++ a.name ++ ";\n"))
    ++ (if attrs.isEmpty then "" else "\n")

/-- Constructor parameter formatting (`f"{attr['type']} {attr['name']}"`). -/
def ctorParamList (attrs : List JAttr) : List String :=
  attrs.map (fun a => a.type ++ " " ++ a.name)

/-- The `this.<name> = <name>;` assignment lines of a constructor body. -/
def assignsBlock (attrs : List JAttr) : String :=
  String.join (attrs.map (fun a =>
    "        this." ++ a.name ++ " = " ++ a.name ++ ";\n"))

/-- A constructor with no superclass invocation. -/
def plainCtor (name : String) (params : List String) (attrs : List JAttr) : String :=
  "    public " ++ name ++ "(" ++ String.intercalate ", " params ++ ") \x7b\n"
    ++ assignsBlock attrs ++ "    \x7d\n\n"

/-- The constructor section: skipped for interfaces; when the extends entry
names a declared non-interface parent, the parent's attribute parameters are
prepended and, if the parent has any attributes, a `super(...)` call leads
the body. -/
def constructorSection (name : String) (d : JDecl)
    (elems : List (String × JDecl)) (ext : List (String × String)) : String :=
  if d.type = "interface" then ""
  else
    let ownParams := ctorParamList d.attributes
    match lookupAssoc ext name with
    | some p =>
      match lookupAssoc elems p with
      | some pd =>
        if pd.type = "interface" then plainCtor name ownParams d.attributes
        else
          let cparams := ctorParamList pd.attributes ++ ownParams
          let superNames := pd.attributes.map (fun a => a.name)
          if superNames = [] then
            "    public " ++ name ++ "(" ++ String.intercalate ", " cparams ++ ") \x7b\n"
              ++ assignsBlock d.attributes ++ "    \x7d\n\n"
          else
            "    public " ++ name ++ "(" ++ String.intercalate ", " cparams ++ ") \x7b\n"
              ++ "        super(" ++ String.intercalate ", " superNames ++ ");\n"
              ++ assignsBlock d.attributes ++ "    \x7d\n\n"
      | none => plainCtor name ownParams d.attributes
    | none => plainCtor name ownParams d.attributes

/-- The getter/setter pair for one attribute: emitted exactly when the
visibility is `private`, named with `str.capitalize()`. -/
def accessorFor (a : JAttr) : String :=
  if a.visibility = "private" then
    "    public " ++ a.type ++ " get" ++ pyCapitalize a.name ++ "() \x7b\n"
      ++ "        return " ++ a.name ++ ";\n"
      ++ "    \x7d\n\n"
      ++ "    public void set" ++ pyCapitalize a.name ++ "(" ++ a.type ++ " " ++ a.name ++ ") \x7b\n"
      ++ "        this." ++ a.name ++ " = " ++ a.name ++ ";\n"
      ++ "    \x7d\n\n"
  else ""

/-- The accessor section: the attribute loop of lines 178-188. -/
def gettersSetters : List JAttr → String
  | [] => ""
  | a :: rest => accessorFor a ++ gettersSetters rest

/-- One rendered method (lines 191-214), including the in-place name and
visibility rewrites the source performs before printing. -/
def renderMethod (dtype : String) (m : JMethod) : String :=
  let step1 :=
    if dtype = "abstract_class" ∧ m.visibility = "public"
        ∧ containsSub ("abstract".toList) (lowerL m.name.toList) = true then
      ("abstract ",
       (stripChars (replaceSub ("\x7babstract\x7d".toList) [] m.name.toList)).asString,
       m.visibility)
    else if dtype = "interface" then ("", m.name, "public")
    else ("", m.name, m.visibility)
  let step2 :=
    if containsSub ("\x7bstatic\x7d".toList) (lowerL step1.2.1.toList) = true then
      (step1.1 ++ "static ",
       (stripChars (replaceSub ("\x7bstatic\x7d".toList) [] step1.2.1.toList)).asString)
    else (step1.1, step1.2.1)
  "    " ++ step1.2.2 ++ " " ++ step2.1 ++ m.returnType ++ " " ++ step2.2
    ++ "(" ++ m.parameters ++ ")"
    ++ (if dtype = "interface" ∨ (stripChars step2.1.toList).asString = "abstract" then
          ";\n\n"
        else
          " \x7b\n        // TODO: Implement method logic\n"
            ++ (if m.returnType ≠ "void" then
                  "        return default" ++ m.returnType ++ "Value(); // Placeholder return\n"
                else "")
            ++ "    \x7d\n\n")

/-- The method section. -/
def methodsSection (dtype : String) (ms : List JMethod) : String :=
  String.join (ms.map (renderMethod dtype))

/-- One complete artifact (the full text written to `<name>.java`). -/
def renderElement (name : String) (d : JDecl) (elems : List (String × JDecl))
    (ext : List (String × String)) (impl : List (String × List String)) : String :=
  importsBlock d
    ++ declarationLine name d ext impl ++ " \x7b\n"
    ++ fieldsBlock d.attributes
    ++ constructorSection name d elems ext
    ++ gettersSetters d.attributes
    ++ methodsSection d.type d.methods
    ++ "\x7d\n"

/-- The whole core transform: diagram text to the artifact mapping, one
entry per declared name, in declaration-table order. -/
def artifacts (s : String) : List (String × String) :=
  let cs := s.toList
  let elems := parsedElements cs
  let ext := extendsMap cs elems
  let impl := implementsMap cs elems
  elems.map (fun p => (p.1, renderElement p.1 p.2 elems ext impl))

/-- The artifact generated for a given name, when the name is declared. -/
def artifactOf (s : String) (name : String) : Option String :=
  lookupAssoc (artifacts s) name

/-- The `declaration_line` of the artifact generated for a given name. -/
def declLineOf (s : String) (name : String) : Option String :=
  let cs := s.toList
  let elems := parsedElements cs
  (lookupAssoc elems name).map (fun d =>
    declarationLine name d (extendsMap cs elems) (implementsMap cs elems))

/-! ### Concrete diagram inputs used to instantiate and refute claims -/

/-- A generalization edge between two declared classes. -/
def inputC1 : String := "class A \x7b \x7d class B \x7b \x7d A <|-- B"

/-- An abstract class whose body uses the diagram's abstract-marker syntax. -/
def inputC2 : String := "abstract class Person \x7b\n+ \x7babstract\x7d getAge(): int\n\x7d"

/-- An interface whose body holds a parameterless (attribute-shaped) line. -/
def inputC3 : String := "interface I \x7b - id: String \x7d"

/-- A class with a private camel-cased attribute. -/
def inputC4 : String := "class C \x7b - myId: String \x7d"

/-- A class whose body line has no leading visibility marker. -/
def inputC5 : String := "class C \x7b name: String \x7d"

/-- Two interfaces joined by a realization edge. -/
def inputC6 : String := "interface I \x7b \x7d interface J \x7b \x7d I ..|> J"

/-- A class whose extends entry names a declared abstract class with an
attribute (the edge is written child-first, matching how Pass 3 reads the
arrow). -/
def inputC7 : String :=
  "abstract class Person \x7b - name: String \x7d class Student \x7b - id: String \x7d Student <|-- Person"

/-- A malformed diagram: no declaration patterns match. -/
def inputC8 : String := "@startuml\ntitle University\nA --> B\n@enduml"

/-- A declared class and interface with one generalization and one
realization edge between them. -/
def inputC9 : String := "class A \x7b \x7d interface B \x7b \x7d A <|-- B\nA ..|> B"

/-- The same name declared first as an interface, later as a class. -/
def inputC10 : String := "interface N \x7b \x7d class N \x7b \x7d"

/-- The Student declaration of `inputC7` as parsed by Passes 1-2. -/
def dStudentC7 : JDecl :=
  ⟨"class", [⟨"private", "String", "id"⟩], [], " - id: String ".toList⟩

/-- The Person declaration of `inputC7` as parsed by Passes 1-2. -/
def pdPersonC7 : JDecl :=
  ⟨"abstract_class", [⟨"private", "String", "name"⟩], [], " - name: String ".toList⟩

/-! ### Association-list lemmas -/

theorem lookupAssoc_insertAssoc_self {α : Type} (l : List (String × α)) (k : String) (v : α) :
    lookupAssoc (insertAssoc l (k, v)) k = some v := by
  induction l with
  | nil => simp [insertAssoc, lookupAssoc]
  | cons h t ih =>
    obtain ⟨k', v'⟩ := h
    by_cases hk : k' = k
    · simp [insertAssoc, hk, lookupAssoc]
    · simp [insertAssoc, hk, lookupAssoc, ih]

theorem lookupAssoc_insertAssoc_ne {α : Type} (l : List (String × α)) (k k' : String) (v : α)
    (h : k ≠ k') : lookupAssoc (insertAssoc l (k, v)) k' = lookupAssoc l k' := by
  induction l with
  | nil => simp [insertAssoc, lookupAssoc, h]
  | cons hd t ih =>
    obtain ⟨k'', v''⟩ := hd
    by_cases hk : k'' = k
    · subst hk
      simp [insertAssoc, lookupAssoc, h]
    · simp [insertAssoc, hk, lookupAssoc, ih]

theorem mem_insertAssoc {α : Type} (l : List (String × α)) (kv x : String × α)
    (h : x ∈ insertAssoc l kv) : x = kv ∨ x ∈ l := by
  induction l with
  | nil =>
    simp [insertAssoc] at h
    exact Or.inl h
  | cons hd t ih =>
    obtain ⟨k', v'⟩ := hd
    by_cases hk : k' = kv.1
    · simp [insertAssoc, hk] at h
      rcases h with h | h
      · exact Or.inl h
      · exact Or.inr (List.mem_cons_of_mem _ h)
    · simp [insertAssoc, hk] at h
      rcases h with h | h
      · exact Or.inr (by simp [h])
      · rcases ih h with h' | h'
        · exact Or.inl h'
        · exact Or.inr (List.mem_cons_of_mem _ h')

theorem foldl_insertAssoc_not_mem {α : Type} :
    ∀ (ms : List (String × α)) (acc : List (String × α)) (N : String),
      N ∉ ms.map Prod.fst →
      lookupAssoc (ms.foldl insertAssoc acc) N = lookupAssoc acc N := by
  intro ms
  induction ms with
  | nil => intro acc N _; rfl
  | cons hd t ih =>
    intro acc N hN
    simp only [List.map_cons, List.mem_cons] at hN
    push_neg at hN
    obtain ⟨hd1, hd2⟩ := hN
    rw [List.foldl_cons, ih _ N hd2]
    obtain ⟨k, a⟩ := hd
    exact lookupAssoc_insertAssoc_ne acc k N a (fun h => hd1 h.symm)

theorem foldl_insertAssoc_prop {α : Type} (P : α → Prop) :
    ∀ (ms : List (String × α)) (acc : List (String × α)) (N : String),
      (∀ p ∈ ms, P p.2) → N ∈ ms.map Prod.fst →
      ∃ v, lookupAssoc (ms.foldl insertAssoc acc) N = some v ∧ P v := by
  intro ms
  induction ms with
  | nil => intro acc N _ hN; simp at hN
  | cons hd t ih =>
    intro acc N hP hN
    obtain ⟨k, a⟩ := hd
    rw [List.foldl_cons]
    by_cases ht : N ∈ t.map Prod.fst
    · exact ih _ N (fun p hp => hP p (List.mem_cons_of_mem _ hp)) ht
    · have hk : k = N := by
        simp only [List.map_cons, List.mem_cons] at hN
        rcases hN with h | h
        · exact h.symm
        · exact absurd h ht
      subst hk
      rw [foldl_insertAssoc_not_mem t _ k ht, lookupAssoc_insertAssoc_self]
      exact ⟨a, rfl, hP (k, a) (List.mem_cons_self _ _)⟩

theorem lookupAssoc_map {α β : Type} (f : α → β) (l : List (String × α)) (k : String) :
    lookupAssoc (l.map (fun p => (p.1, f p.2))) k = (lookupAssoc l k).map f := by
  induction l with
  | nil => rfl
  | cons hd t ih =>
    obtain ⟨k', v⟩ := hd
    by_cases hk : k' = k
    · simp [lookupAssoc, hk]
    · simp [lookupAssoc, hk, ih]

/-! ### Relationship-fold lemmas (Pass 3 invariant) -/

theorem extendsFold_invariant (elems : List (String × JDecl)) :
    ∀ (edges : List (String × String)) (acc : List (String × String)),
      (∀ e ∈ acc, containsKey elems e.1 = true ∧ containsKey elems e.2 = true) →
      ∀ e ∈ edges.foldl
          (fun acc e =>
            if containsKey elems e.1 && containsKey elems e.2 then insertAssoc acc e
            else acc) acc,
        containsKey elems e.1 = true ∧ containsKey elems e.2 = true := by
  intro edges
  induction edges with
  | nil => intro acc hacc e he; exact hacc e he
  | cons ed rest ih =>
    intro acc hacc e he
    rw [List.foldl_cons] at he
    refine ih _ ?_ e he
    intro x hx
    by_cases hc : (containsKey elems ed.1 && containsKey elems ed.2) = true
    · rw [if_pos hc] at hx
      rcases mem_insertAssoc acc ed x hx with h | h
      · subst h
        simpa [Bool.and_eq_true] using hc
      · exact hacc x h
    · rw [if_neg hc] at hx
      exact hacc x hx

theorem appendImpl_invariant (elems : List (String × JDecl)) (k v : String)
    (hk : containsKey elems k = true) (hv : containsKey elems v = true) :
    ∀ (l : List (String × List String)),
      (∀ e ∈ l, containsKey elems e.1 = true ∧ ∀ i ∈ e.2, containsKey elems i = true) →
      ∀ e ∈ appendImpl l k v,
        containsKey elems e.1 = true ∧ ∀ i ∈ e.2, containsKey elems i = true := by
  intro l
  induction l with
  | nil =>
    intro _ e he
    simp [appendImpl] at he
    subst he
    exact ⟨hk, by simpa using hv⟩
  | cons hd t ih =>
    intro hl e he
    obtain ⟨k', vs⟩ := hd
    by_cases hkk : k' = k
    · simp only [appendImpl, if_pos hkk] at he
      rcases List.mem_cons.mp he with h | h
      · subst h
        have hhd := hl (k', vs) (List.mem_cons_self _ _)
        refine ⟨hhd.1, ?_⟩
        intro i hi
        rcases List.mem_append.mp hi with h' | h'
        · exact hhd.2 i h'
        · simp at h'
          subst h'
          exact hv
      · exact hl e (List.mem_cons_of_mem _ h)
    · simp only [appendImpl, if_neg hkk] at he
      rcases List.mem_cons.mp he with h | h
      · subst h
        exact hl (k', vs) (List.mem_cons_self _ _)
      · exact ih (fun x hx => hl x (List.mem_cons_of_mem _ hx)) e h

theorem implementsFold_invariant (elems : List (String × JDecl)) :
    ∀ (edges : List (String × String)) (acc : List (String × List String)),
      (∀ e ∈ acc, containsKey elems e.1 = true ∧ ∀ i ∈ e.2, containsKey elems i = true) →
      ∀ e ∈ edges.foldl
          (fun acc e =>
            if containsKey elems e.1 && containsKey elems e.2 then appendImpl acc e.1 e.2
            else acc) acc,
        containsKey elems e.1 = true ∧ ∀ i ∈ e.2, containsKey elems i = true := by
  intro edges
  induction edges with
  | nil => intro acc hacc e he; exact hacc e he
  | cons ed rest ih =>
    intro acc hacc e he
    rw [List.foldl_cons] at he
    refine ih _ ?_ e he
    intro x hx
    by_cases hc : (containsKey elems ed.1 && containsKey elems ed.2) = true
    · rw [if_pos hc] at hx
      rw [Bool.and_eq_true] at hc
      exact appendImpl_invariant elems ed.1 ed.2 hc.1 hc.2 acc hacc x hx
    · rw [if_neg hc] at hx
      exact hacc x hx

/-! ### Miscellaneous helper lemmas -/

theorem parseAfterVis_vis (c : Char) (cs : List Char) (m : Member)
    (h : parseAfterVis c cs = some m) : m.vis = c := by
  unfold parseAfterVis at h
  split at h
  · exact absurd h (by simp)
  · dsimp only at h
    split at h
    · injection h with h'
      subst h'
      rfl
    · exact absurd h (by simp)

theorem populate_type (d : JDecl) : (populate d).type = d.type := rfl

theorem gettersSetters_append (l1 l2 : List JAttr) :
    gettersSetters (l1 ++ l2) = gettersSetters l1 ++ gettersSetters l2 := by
  induction l1 with
  | nil => simp [gettersSetters]
  | cons a t ih =>
    show accessorFor a ++ gettersSetters (t ++ l2)
      = accessorFor a ++ gettersSetters t ++ gettersSetters l2
    rw [ih, String.append_assoc]

/-! ### Claim theorems -/

/-- C1: the claim states that a generalization edge `A <|-- B` with both
ends declared produces an extends reference to A in B's artifact.  The code
does the opposite: Pass 3 reads the left-hand word as the child
(`child, parent = match.groups()` on `(\w+)\s*<\|--\s*(\w+)`), so for
`A <|-- B` it records `extends[A] = B` and the renderer emits
`public class A extends B`, while B's declaration line carries no extends
clause.  This theorem evaluates the pipeline at the failing input. -/
theorem c1_inheritance_direction_eval :
    declLineOf inputC1 "A" = some "public class A extends B"
      ∧ declLineOf inputC1 "B" = some "public class B"
      ∧ extendsMap inputC1.toList (parsedElements inputC1.toList) = [("A", "B")] := by
  decide

/-- C2: the claim states that a member line embedding `\x7babstract\x7d` or
`\x7bstatic\x7d` in its method name is recognized as a method and rendered
with the marker stripped into a modifier.  In the code the member pattern's
name group is `\w+`, which cannot match a brace, so such lines never match
at all (and the class-body group `[^}]*` even truncates the body at the
closing brace of the marker): the declaration ends up with no methods and
no attributes, and no modifier is ever emitted.  This theorem evaluates the
resolver at the repo's own sample member lines and the pipeline at the
failing input. -/
theorem c2_marker_lines_unrecognized_eval :
    parseMember ("+ \x7babstract\x7d getAge(): int".toList) = none
      ∧ parseMember ("+ \x7bstatic\x7d getCreditHours(): int".toList) = none
      ∧ (lookupAssoc (parsedElements inputC2.toList) "Person").map
          (fun d => (d.type, d.attributes, d.methods))
          = some ("abstract_class", [], []) := by
  decide

/-- C3: the claim states that an interface's artifact contains no field
block and no constructor even when attribute-shaped member lines appear in
its body.  The constructor is indeed guarded (`type != 'interface'`), but
the field block (and the accessor block) has no kind guard: the interface's
parsed attribute is rendered as a field line.  This theorem evaluates the
pipeline at the failing input. -/
theorem c3_interface_field_block_eval :
    (lookupAssoc (parsedElements inputC3.toList) "I").map
        (fun d => (d.type, d.attributes))
        = some ("interface", [⟨"private", "String", "id"⟩])
      ∧ (lookupAssoc (parsedElements inputC3.toList) "I").map
          (fun d => fieldsBlock d.attributes)
          = some "    private String id;\n\n"
      ∧ (lookupAssoc (parsedElements inputC3.toList) "I").map
          (fun d => constructorSection "I" d (parsedElements inputC3.toList)
            (extendsMap inputC3.toList (parsedElements inputC3.toList)))
          = some ""
      ∧ (artifactOf inputC3 "I").map (fun a => containsSubStr "    private String id;\n" a)
          = some true := by
  decide

/-- C4 counterexample: the claim states accessor names capitalize only the
first character and leave the rest unchanged, so the private attribute
`myId` would yield `getMyId`/`setMyId`.  The code uses Python
`str.capitalize()`, which also lowercases the remaining characters, so the
artifact contains `getMyid`/`setMyid` and no `getMyId`/`setMyId`. -/
theorem c4_capitalize_counterexample :
    (artifactOf inputC4 "C").map (fun a =>
        (containsSubStr "getMyId" a, containsSubStr "getMyid" a,
         containsSubStr "setMyId" a, containsSubStr "setMyid" a))
      = some (false, true, false, true) := by
  decide

/-- C5 counterexample: the claim states that a body line without a leading
visibility marker still yields a member record with public visibility.  In
the code the marker group `([+\-#~])` is mandatory, so `name: String`
matches nothing and the class ends up with no attributes and no methods. -/
theorem c5_missing_marker_counterexample :
    parseMember ("name: String".toList) = none
      ∧ (lookupAssoc (parsedElements inputC5.toList) "C").map
          (fun d => (d.attributes, d.methods))
          = some ([], []) := by
  decide

/-- C6 counterexample: the claim states an interface's header line never
contains an implements clause.  Pass 3 records realization edges for any
declared left endpoint, interfaces included, and the renderer appends the
implements clause with no kind guard, so `I ..|> J` between two interfaces
yields `public interface I implements J`. -/
theorem c6_interface_implements_counterexample :
    declLineOf inputC6 "I" = some "public interface I implements J"
      ∧ (lookupAssoc (parsedElements inputC6.toList) "I").map JDecl.type
          = some "interface" := by
  decide

/-- C4 amended: each private attribute contributes exactly one getter/setter
pair at its position in the accessor section, named `get`/`set` followed by
the Python-capitalized attribute name (first character uppercased, all
remaining characters lowercased); attributes with any other visibility
contribute nothing. -/
theorem c4_accessors_amended (a : JAttr) (pre post : List JAttr) :
    (a.visibility = "private" →
      gettersSetters (pre ++ a :: post)
        = gettersSetters pre
          ++ ("    public " ++ a.type ++ " get" ++ pyCapitalize a.name ++ "() \x7b\n"
              ++ "        return " ++ a.name ++ ";\n"
              ++ "    \x7d\n\n"
              ++ "    public void set" ++ pyCapitalize a.name ++ "(" ++ a.type ++ " " ++ a.name ++ ") \x7b\n"
              ++ "        this." ++ a.name ++ " = " ++ a.name ++ ";\n"
              ++ "    \x7d\n\n")
          ++ gettersSetters post)
      ∧ (a.visibility ≠ "private" →
      gettersSetters (pre ++ a :: post) = gettersSetters pre ++ gettersSetters post) := by
  constructor
  · intro h
    rw [gettersSetters_append]
    show gettersSetters pre ++ (accessorFor a ++ gettersSetters post) = _
    rw [accessorFor, if_pos h, ← String.append_assoc]
  · intro h
    rw [gettersSetters_append]
    show gettersSetters pre ++ (accessorFor a ++ gettersSetters post) = _
    rw [accessorFor, if_neg h]
    show gettersSetters pre ++ ("" ++ gettersSetters post) = _
    rw [String.empty_append]

/-- Witness for C4: instantiates the amended accessor theorem at the
private attribute `myId`, whose pair is named `getMyid`/`setMyid`. -/
theorem c4_accessors_amended_witness :
    gettersSetters ([] ++ (⟨"private", "String", "myId"⟩ : JAttr) :: [])
      = gettersSetters []
        ++ ("    public " ++ "String" ++ " get" ++ pyCapitalize "myId" ++ "() \x7b\n"
            ++ "        return " ++ "myId" ++ ";\n"
            ++ "    \x7d\n\n"
            ++ "    public void set" ++ pyCapitalize "myId" ++ "(" ++ "String" ++ " " ++ "myId" ++ ") \x7b\n"
            ++ "        this." ++ "myId" ++ " = " ++ "myId" ++ ";\n"
            ++ "    \x7d\n\n")
        ++ gettersSetters [] :=
  (c4_accessors_amended ⟨"private", "String", "myId"⟩ [] []).1 (by decide)

/-- C5 amended: a body line matches the member pattern only when its leading
visibility marker is present and is one of `+ - # ~` (the marker group is
mandatory); a line whose stripped text starts with any other character
produces no member record at all, so the mapping's public default for
unknown markers is unreachable.  The four markers map to public, private,
protected and package-private (empty) respectively. -/
theorem c5_visibility_amended :
    (∀ (line : List Char) (m : Member), parseMember line = some m →
        m.vis = '+' ∨ m.vis = '-' ∨ m.vis = '#' ∨ m.vis = '~')
      ∧ (∀ (line : List Char) (c : Char) (rest : List Char),
          stripChars line = c :: rest →
          c ≠ '+' → c ≠ '-' → c ≠ '#' → c ≠ '~' →
          parseMember line = none)
      ∧ javaVisibility '+' = "public" ∧ javaVisibility '-' = "private"
      ∧ javaVisibility '#' = "protected" ∧ javaVisibility '~' = "" := by
  refine ⟨?_, ?_, rfl, by decide, by decide, by decide⟩
  · intro line m h
    unfold parseMember at h
    split at h
    · exact absurd h (by simp)
    · rename_i c rest _
      split at h
      · rename_i hc
        rw [parseAfterVis_vis c rest m h]
        exact hc
      · exact absurd h (by simp)
  · intro line c rest hs h1 h2 h3 h4
    unfold parseMember
    rw [hs]
    show (if c = '+' ∨ c = '-' ∨ c = '#' ∨ c = '~' then parseAfterVis c rest else none) = none
    rw [if_neg]
    rintro (h | h | h | h)
    · exact h1 h
    · exact h2 h
    · exact h3 h
    · exact h4 h

/-- Witness for C5: a matched line's marker is one of the four characters,
and a line with no marker produces no member. -/
theorem c5_visibility_amended_witness :
    (('-' : Char) = '+' ∨ ('-' : Char) = '-' ∨ ('-' : Char) = '#' ∨ ('-' : Char) = '~')
      ∧ parseMember ("name: String".toList) = none :=
  ⟨c5_visibility_amended.1 ("- x".toList) ⟨'-', ['x'], none, none, none⟩ (by decide),
   c5_visibility_amended.2.1 ("name: String".toList) 'n' ("ame: String".toList)
     (by decide) (by decide) (by decide) (by decide) (by decide)⟩

/-- C6 amended: the implements clause is appended to the declaration line
whenever the declared name has a recorded realization entry, with no guard
on the declaration's kind — so interfaces receive implements clauses too. -/
theorem c6_implements_amended (name : String) (d : JDecl)
    (ext : List (String × String)) (impl : List (String × List String))
    (l : List String) (h : lookupAssoc impl name = some l) :
    declarationLine name d ext impl
      = withExtends (declKindHeader name d) name ext
        ++ " implements " ++ String.intercalate ", " l := by
  unfold declarationLine
  rw [h]

/-- Witness for C6: instantiates the amended implements theorem at the
interface declaration `I` of `inputC6`. -/
theorem c6_implements_amended_witness :
    declarationLine "I" (emptyDecl "interface" (" ".toList))
        (extendsMap inputC6.toList (parsedElements inputC6.toList))
        (implementsMap inputC6.toList (parsedElements inputC6.toList))
      = withExtends (declKindHeader "I" (emptyDecl "interface" (" ".toList))) "I"
          (extendsMap inputC6.toList (parsedElements inputC6.toList))
        ++ " implements " ++ String.intercalate ", " ["J"] :=
  c6_implements_amended "I" (emptyDecl "interface" (" ".toList))
    (extendsMap inputC6.toList (parsedElements inputC6.toList))
    (implementsMap inputC6.toList (parsedElements inputC6.toList))
    ["J"] (by decide)

/-- C7: for a class or abstract class whose extends entry names a declared
non-interface parent with at least one attribute, the constructor section is
a single public constructor whose parameter list is the parent's attributes
followed by the type's own attributes, whose first body statement invokes
`super` with the parent's attribute names, followed by the type's own field
assignments. -/
theorem c7_parent_constructor (elems : List (String × JDecl))
    (ext : List (String × String)) (name p : String) (d pd : JDecl)
    (hk : d.type = "class" ∨ d.type = "abstract_class")
    (he : lookupAssoc ext name = some p)
    (hp : lookupAssoc elems p = some pd)
    (hpi : pd.type ≠ "interface")
    (hpa : pd.attributes ≠ []) :
    constructorSection name d elems ext
      = "    public " ++ name ++ "("
        ++ String.intercalate ", "
            ((pd.attributes ++ d.attributes).map (fun a => a.type ++ " " ++ a.name))
        ++ ") \x7b\n"
        ++ "        super("
        ++ String.intercalate ", " (pd.attributes.map (fun a => a.name)) ++ ");\n"
        ++ assignsBlock d.attributes
        ++ "    \x7d\n\n" := by
  have hdi : d.type ≠ "interface" := by
    rcases hk with h | h <;> rw [h] <;> decide
  have hsn : pd.attributes.map (fun a => a.name) ≠ [] := by
    simpa using hpa
  unfold constructorSection
  simp only [if_neg hdi, he, hp, if_neg hpi, ctorParamList]
  rw [if_neg hsn, List.map_append]

/-- Witness for C7: the Student/Person pipeline of `inputC7` instantiates
every hypothesis, and the resulting constructor text is evaluated. -/
theorem c7_parent_constructor_witness :
    constructorSection "Student" dStudentC7 (parsedElements inputC7.toList)
        (extendsMap inputC7.toList (parsedElements inputC7.toList))
      = "    public Student(String name, String id) \x7b\n        super(name);\n        this.id = id;\n    \x7d\n\n" := by
  rw [c7_parent_constructor (parsedElements inputC7.toList)
    (extendsMap inputC7.toList (parsedElements inputC7.toList))
    "Student" "Person" dStudentC7 pdPersonC7
    (Or.inl rfl) (by decide) (by decide) (by decide) (by decide)]
  decide

/-- C8: the core transform is a total Lean function over every input string
(it is defined without partiality), it emits exactly one artifact per entry
of the declaration table — everything unrecognized is simply absent — and on
empty or fully malformed diagram text it produces the empty mapping. -/
theorem c8_total_transform :
    (∀ s : String, (artifacts s).map Prod.fst = (parsedElements s.toList).map Prod.fst)
      ∧ artifacts "" = []
      ∧ artifacts inputC8 = [] := by
  refine ⟨?_, by decide, by decide⟩
  intro s
  simp [artifacts, List.map_map]

/-- C9: after relationship resolution every key and value of the extends
mapping, and every key and list element of the implements mapping, is a name
present in the declaration table — edges with an undeclared endpoint are
dropped by the membership guard, never recorded and never an error. -/
theorem c9_relationship_invariant (s : String) :
    (∀ e ∈ extendsMap s.toList (parsedElements s.toList),
        containsKey (parsedElements s.toList) e.1 = true
          ∧ containsKey (parsedElements s.toList) e.2 = true)
      ∧ (∀ e ∈ implementsMap s.toList (parsedElements s.toList),
        containsKey (parsedElements s.toList) e.1 = true
          ∧ ∀ i ∈ e.2, containsKey (parsedElements s.toList) i = true) :=
  ⟨extendsFold_invariant (parsedElements s.toList)
      (inheritanceMatches s.toList) [] (fun _ hx => absurd hx (List.not_mem_nil _)),
   implementsFold_invariant (parsedElements s.toList)
      (implementationMatches s.toList) [] (fun _ hx => absurd hx (List.not_mem_nil _))⟩

/-- Witness for C9: in `inputC9` the edge `A <|-- B` is recorded, and the
invariant applied to it shows both endpoints are declared names. -/
theorem c9_relationship_invariant_witness :
    (("A", "B") ∈ extendsMap inputC9.toList (parsedElements inputC9.toList))
      ∧ containsKey (parsedElements inputC9.toList) "A" = true
      ∧ containsKey (parsedElements inputC9.toList) "B" = true :=
  ⟨by decide,
   ((c9_relationship_invariant inputC9).1 ("A", "B") (by decide)).1,
   ((c9_relationship_invariant inputC9).1 ("A", "B") (by decide)).2⟩

/-- C10: when the same name is matched by both the class pattern and the
interface pattern, the final declaration table records it with kind
interface, regardless of the relative textual positions of the two
declarations — the interface extraction loop runs entirely after the class
extraction loop and overwrites the table entry. -/
theorem c10_interface_overwrites (cs : List Char) (N : String)
    (_hc : N ∈ (classEntries cs).map Prod.fst)
    (hi : N ∈ (interfaceEntries cs).map Prod.fst) :
    (lookupAssoc (parsedElements cs) N).map JDecl.type = some "interface" := by
  obtain ⟨v, hv, hP⟩ :=
    foldl_insertAssoc_prop (fun d : JDecl => d.type = "interface")
      (interfaceEntries cs) ((classEntries cs).foldl insertAssoc []) N
      (by
        intro q hq
        simp only [interfaceEntries, List.mem_map] at hq
        obtain ⟨t, _, rfl⟩ := hq
        rfl)
      hi
  unfold parsedElements
  rw [lookupAssoc_map]
  unfold pass1
  rw [hv]
  simp [populate_type, hP]

/-- Witness for C10 (interface declared textually first, class second): the
final kind is still interface. -/
theorem c10_interface_overwrites_witness :
    (lookupAssoc (parsedElements inputC10.toList) "N").map JDecl.type
      = some "interface" :=
  c10_interface_overwrites inputC10.toList "N" (by decide) (by decide)
